import Mathlib

/-!
Verification development for the interactive human-in-the-loop automation
runner (`richie.py`).  The single class `AutomationUI` is shallowly embedded
as a state record plus pure transition functions.  Interactive effects are
made explicit:

* keystroke polling becomes a list of `PollEvent`s (no key pending, a key,
  an interrupt-signal delivery, or an unexpected exception surfacing from a
  callee);
* `Confirm.ask` answers, `Prompt.ask` format choices and file-write outcomes
  become input streams in `Aux`;
* wall-clock timestamps become a ghost counter `clock` rendered to a string
  (the code only ever treats timestamps as opaque strings);
* a ghost counter `cleanup_count` observes how many times the `cleanup`
  routine has run; it influences no behaviour.

Loops (`show_action_menu`'s poll loop, `run_step`'s action loop,
`run_automation`'s step loop) either consume input or are driven by fuel
derived from the input length; exhausting input or fuel yields `none`,
modelling an execution that blocks forever waiting for the operator.
-/

/-- JSON values, at the granularity the program's log entries use.
Models the payloads handed to the external `json` module. -/
inductive JVal where
  | str (s : String)
  | nat (n : Nat)
  | obj (fields : List (String × JVal))
  | arr (items : List JVal)

/-- One element of `self.session_logs`, exactly the dict built in
`log_event`: insertion order of keys is timestamp, event, step, details. -/
structure LogEntry where
  timestamp : String
  event : String
  step : Nat
  details : List (String × JVal)

/-- The mutable state of `AutomationUI`.  `clock` and `cleanup_count` are
ghost observation fields (timestamp supply and a counter of completed
`cleanup` runs); the first three fields are the instance attributes
`current_step`, `session_logs`, `is_running`. -/
structure AutomationUI where
  current_step : Nat
  session_logs : List LogEntry
  is_running : Bool
  clock : Nat
  cleanup_count : Nat

/-- A step dict as consumed by the core (`title`, `description`, `status`,
`help_text`, `common_issues`). -/
structure Step where
  title : String
  description : String
  status : String
  help_text : String
  common_issues : String

instance : Inhabited Step := ⟨⟨"", "", "", "", ""⟩⟩

/-- Environment events observed by one `check_keyboard_input` poll site:
no key buffered, a buffered key, delivery of an interrupt signal, or an
unexpected exception raised by a callee at that point. -/
inductive PollEvent where
  | idle
  | key (c : Char)
  | signal
  | err (msg : String)

/-- Remaining interactive input other than key polls: `Confirm.ask`
answers, `Prompt.ask` export-format choices, and the outcome of each
attempted log-file write (`none` = write succeeds, `some e` = the write
raises an exception whose text is `e`). -/
structure Aux where
  confirms : List Bool
  formats : List String
  writes : List (Option String)

/-- `log_event`: append a timestamped entry; `step` is `current_step + 1`
and a missing/empty details dict becomes `{}`. -/
def log_event (ui : AutomationUI) (event : String)
    (details : Option (List (String × JVal))) : AutomationUI :=
  { ui with
    session_logs := ui.session_logs ++
      [{ timestamp := toString ui.clock
         event := event
         step := ui.current_step + 1
         details := details.getD [] }]
    clock := ui.clock + 1 }

/-- `print_message`: the colour styling only affects console output; every
call logs one "Message displayed" event recording text and level. -/
def print_message (ui : AutomationUI) (message : String) (level : String) :
    AutomationUI :=
  log_event ui "Message displayed"
    (some [("message", JVal.str message), ("level", JVal.str level)])

/-- The keystroke dict in `check_keyboard_input` (keys already lowered). -/
def keyAction (k : Char) : Option String :=
  if k = '\r' then some "proceed"
  else if k = 'h' then some "help"
  else if k = 'q' then some "exit"
  else if k = 'l' then some "logs"
  else if k = 'r' then some "retry"
  else if k = 's' then some "summary"
  else none

/-- `check_keyboard_input`: `none` argument = `kbhit()` false; otherwise the
buffered key is lowered and looked up; unmapped keys give `None`. -/
def check_keyboard_input (p : Option Char) : Option String :=
  match p with
  | some key => keyAction key.toLower
  | none => none

/-- `display_header`: prints the banner and logs "Header displayed". -/
def display_header (ui : AutomationUI) : AutomationUI :=
  log_event ui "Header displayed" none

/-- `display_progress`: logs "Progress started", runs the spinner (pure
delay), logs "Progress completed"; both entries carry the description. -/
def display_progress (ui : AutomationUI) (description : String) :
    AutomationUI :=
  log_event
    (log_event ui "Progress started"
      (some [("description", JVal.str description)]))
    "Progress completed" (some [("description", JVal.str description)])

/-- `display_help`: logs "Help displayed" with the step title, renders the
help panel. -/
def display_help (ui : AutomationUI) (step : Step) : AutomationUI :=
  log_event ui "Help displayed" (some [("step_title", JVal.str step.title)])

/-- `export_logs`: the filename stamp is the current instant; on a
successful write it reports success and logs "Logs exported", on an
exception it reports the error and logs "Log export failed", returning
`false`. -/
def export_logs (ui : AutomationUI) (format : String)
    (writeOutcome : Option String) : AutomationUI × Bool :=
  let ts := toString ui.clock
  let ext := if format = "text" then "txt" else "json"
  let log_path := "logs/automation_logs_" ++ ts ++ "." ++ ext
  match writeOutcome with
  | none =>
    let ui1 := print_message ui ("Logs exported successfully to " ++ log_path)
      "success"
    let ui2 := log_event ui1 "Logs exported"
      (some [("filename", JVal.str log_path)])
    (ui2, true)
  | some e =>
    let ui1 := print_message ui ("Error exporting logs: " ++ e) "error"
    let ui2 := log_event ui1 "Log export failed"
      (some [("error", JVal.str e)])
    (ui2, false)

/-- `show_export_options`: prompt for a format (consuming one answer) and
invoke `export_logs` with the next write outcome, discarding its result.
Empty streams model an operator who never answers. -/
def show_export_options (ui : AutomationUI) (aux : Aux) :
    Option (AutomationUI × Aux) :=
  match aux.formats, aux.writes with
  | f :: fs, w :: ws =>
    some ((export_logs ui f w).1, { aux with formats := fs, writes := ws })
  | _, _ => none

/-- Tail of `cleanup`: the closing message, plus the ghost counter bump
observing that one `cleanup` run completed. -/
def cleanup_close (ui : AutomationUI) : AutomationUI :=
  let ui1 := print_message ui "Cleanup completed" "info"
  { ui1 with cleanup_count := ui1.cleanup_count + 1 }

/-- `cleanup`: if any logs exist, offer to save them (one confirm answer;
on yes, run the export dialogue), then print the closing message. -/
def cleanup (ui : AutomationUI) (aux : Aux) : Option (AutomationUI × Aux) :=
  if ui.session_logs.isEmpty then
    some (cleanup_close ui, aux)
  else
    match aux.confirms with
    | [] => none
    | c :: cs =>
      if c then
        match show_export_options ui { aux with confirms := cs } with
        | none => none
        | some (ui1, aux1) => some (cleanup_close ui1, aux1)
      else
        some (cleanup_close ui, { aux with confirms := cs })

/-- `handle_interrupt`: clear the running flag, warn, and run `cleanup`
synchronously inside the handler. -/
def handle_interrupt (ui : AutomationUI) (aux : Aux) :
    Option (AutomationUI × Aux) :=
  cleanup
    (print_message { ui with is_running := false }
      "\nGracefully shutting down..." "warning")
    aux

/-- Result of one pass through `show_action_menu`: an action string, or an
unexpected exception propagating out. -/
inductive MenuResult where
  | action (a : String)
  | raised (msg : String)

/-- `show_action_menu`: poll until a recognized action arrives, logging
"Action selected" for it; unrecognized keys and empty polls just continue.
A signal delivered between polls runs the interrupt handler and the loop
resumes; an injected exception propagates. -/
def show_action_menu (ui : AutomationUI) :
    List PollEvent → Aux → Option (MenuResult × AutomationUI × List PollEvent × Aux)
  | [], _ => none
  | PollEvent.idle :: rest, aux => show_action_menu ui rest aux
  | PollEvent.err msg :: rest, aux =>
    some (MenuResult.raised msg, ui, rest, aux)
  | PollEvent.signal :: rest, aux =>
    match handle_interrupt ui aux with
    | none => none
    | some (ui1, aux1) => show_action_menu ui1 rest aux1
  | PollEvent.key c :: rest, aux =>
    match check_keyboard_input (some c) with
    | some a =>
      some (MenuResult.action a,
        log_event ui "Action selected" (some [("action", JVal.str a)]),
        rest, aux)
    | none => show_action_menu ui rest aux

/-- Terminal outcome of `run_step`: normal return value, or an exception
propagating to `run_automation`. -/
inductive StepOutcome where
  | done (advance : Bool)
  | raised (msg : String)

/-- The `while True` action loop of `run_step`, driven by fuel (each
iteration consumes at least one poll, so `polls.length + 1` fuel is always
enough).  Dispatch follows the source's if/elif chain; `summary` and any
other logged action fall through and loop again. -/
def run_step_loop (step : Step) :
    Nat → AutomationUI → List PollEvent → Aux →
      Option (StepOutcome × AutomationUI × List PollEvent × Aux)
  | 0, _, _, _ => none
  | fuel + 1, ui, polls, aux =>
    match show_action_menu ui polls aux with
    | none => none
    | some (MenuResult.raised msg, ui1, polls1, aux1) =>
      some (StepOutcome.raised msg, ui1, polls1, aux1)
    | some (MenuResult.action a, ui1, polls1, aux1) =>
      if a = "proceed" then
        let ui2 := print_message ui1
          ("Step \x27" ++ step.title ++ "\x27 completed") "success"
        let ui3 := log_event ui2 "Step completed"
          (some [("step_title", JVal.str step.title)])
        some (StepOutcome.done true, ui3, polls1, aux1)
      else if a = "retry" then
        let ui2 := print_message ui1 "Retrying step..." "warning"
        let ui3 := log_event ui2 "Step retry"
          (some [("step_title", JVal.str step.title)])
        let ui4 := display_progress ui3 "Retrying operation..."
        run_step_loop step fuel ui4 polls1 aux1
      else if a = "help" then
        run_step_loop step fuel (display_help ui1 step) polls1 aux1
      else if a = "logs" then
        match show_export_options ui1 aux1 with
        | none => none
        | some (ui2, aux2) => run_step_loop step fuel ui2 polls1 aux2
      else if a = "exit" then
        match aux1.confirms with
        | [] => none
        | c :: cs =>
          if c then
            let ui2 := print_message ui1 "Session terminated by user" "warning"
            let ui3 := log_event ui2 "Session terminated by user" none
            some (StepOutcome.done false, ui3, polls1,
              { aux1 with confirms := cs })
          else
            run_step_loop step fuel ui1 polls1 { aux1 with confirms := cs }
      else
        run_step_loop step fuel ui1 polls1 aux1

/-- `run_step`: clear screen, header, "Step started" log, step panel,
progress simulation, then the action loop. -/
def run_step (step : Step) (ui : AutomationUI) (polls : List PollEvent)
    (aux : Aux) : Option (StepOutcome × AutomationUI × List PollEvent × Aux) :=
  let ui1 := display_header ui
  let ui2 := log_event ui1 "Step started"
    (some [("step_title", JVal.str step.title),
           ("step_status", JVal.str step.status)])
  let ui3 := display_progress ui2 ("Running " ++ step.title ++ "...")
  run_step_loop step (polls.length + 1) ui3 polls aux

/-- The `while` loop of `run_automation`, also returning the iteration
trace: one `(index at entry, run_step result)` pair per loop iteration (an
iteration ended by an exception records `false`).  The first component of
a `some` result is the exception text when the loop ended by raising. -/
def run_auto_loop (steps : List Step) :
    Nat → AutomationUI → List PollEvent → Aux →
      Option (Option String × AutomationUI × List PollEvent × Aux ×
        List (Nat × Bool))
  | 0, _, _, _ => none
  | fuel + 1, ui, polls, aux =>
    if ui.current_step < steps.length && ui.is_running then
      match run_step (steps.getD ui.current_step default) ui polls aux with
      | none => none
      | some (StepOutcome.raised msg, ui1, polls1, aux1) =>
        some (some msg, ui1, polls1, aux1, [(ui.current_step, false)])
      | some (StepOutcome.done true, ui1, polls1, aux1) =>
        match run_auto_loop steps fuel
            { ui1 with current_step := ui1.current_step + 1 } polls1 aux1 with
        | none => none
        | some (exc, uf, pf, af, tr) =>
          some (exc, uf, pf, af, (ui.current_step, true) :: tr)
      | some (StepOutcome.done false, ui1, polls1, aux1) =>
        some (none, ui1, polls1, aux1, [(ui.current_step, false)])
    else
      some (none, ui, polls, aux, [])

/-- The `finally` block: record the logs as they stand when cleanup is
entered, run `cleanup`, and return the final state, the pre-cleanup logs
and the loop trace. -/
def run_finally (ui : AutomationUI) (aux : Aux) (tr : List (Nat × Bool)) :
    Option (AutomationUI × List LogEntry × List (Nat × Bool)) :=
  match cleanup ui aux with
  | none => none
  | some (uf, _) => some (uf, ui.session_logs, tr)

/-- What `run_automation` does once its `while` loop has ended: on an
exception the `except` block's error report, on natural completion the
"Automation completed" block with an optional export (one confirm answer);
either way the `finally` cleanup closes the path. -/
def run_post_loop (steps : List Step) (exc : Option String)
    (ui1 : AutomationUI) (aux1 : Aux) (tr : List (Nat × Bool)) :
    Option (AutomationUI × List LogEntry × List (Nat × Bool)) :=
  match exc with
  | some msg =>
    let ui2 := print_message ui1 ("Unexpected error: " ++ msg) "error"
    let ui3 := log_event ui2 "Error occurred" (some [("error", JVal.str msg)])
    run_finally ui3 aux1 tr
  | none =>
    if steps.length ≤ ui1.current_step then
      let ui2 := log_event ui1 "Automation completed"
        (some [("total_steps", JVal.nat steps.length)])
      let ui3 := print_message ui2 "🎉 Automation completed successfully!"
        "success"
      match aux1.confirms with
      | [] => none
      | c :: cs =>
        let aux2 := { aux1 with confirms := cs }
        if c then
          match show_export_options ui3 aux2 with
          | none => none
          | some (ui4, aux3) => run_finally ui4 aux3 tr
        else
          run_finally ui3 aux2 tr
    else
      run_finally ui1 aux1 tr

/-- `run_automation`: shortcuts panel and pause (no state change), the step
loop, then the completion/error handling and the guaranteed `finally`
cleanup of `run_post_loop`. -/
def run_automation (ui : AutomationUI) (steps : List Step)
    (polls : List PollEvent) (aux : Aux) :
    Option (AutomationUI × List LogEntry × List (Nat × Bool)) :=
  match run_auto_loop steps (polls.length + 1) ui polls aux with
  | none => none
  | some (exc, ui1, _, aux1, tr) => run_post_loop steps exc ui1 aux1 tr

/-- The state built by `AutomationUI.__init__`: index 0, running, and one
"Session started" entry already logged. -/
def init : AutomationUI :=
  log_event
    { current_step := 0, session_logs := [], is_running := true,
      clock := 0, cleanup_count := 0 }
    "Session started" none

/-- The two example steps shipped at the bottom of the source file. -/
def exampleSteps : List Step :=
  [{ title := "Initialize System Configuration"
     description := "Setting up necessary configurations and checking prerequisites"
     status := "Ready to start"
     help_text := "This step verifies your system meets all requirements"
     common_issues := "- Missing dependencies\n- Insufficient permissions" },
   { title := "Data Preparation"
     description := "Preparing and validating input data"
     status := "Waiting for previous step"
     help_text := "Ensures all required data is present and correctly formatted"
     common_issues := "- Invalid file format\n- Missing required fields" }]

/-- Serialization of one log entry as handed to `json.dumps`: the dict from
`log_event` in its insertion order. -/
def entryToJson (e : LogEntry) : JVal :=
  JVal.obj [("timestamp", JVal.str e.timestamp), ("event", JVal.str e.event),
    ("step", JVal.nat e.step), ("details", JVal.obj e.details)]

/-- `_format_logs_as_json`: the `log_data` object `{session_start, logs}`
built from the session start time and the log list.  The textual encoding
and decoding of this value are the external `json` module's
`dumps`/`loads`, whose round trip is the identity on such values, so the
repository-side content of the claim lives at the level of JSON values. -/
def _format_logs_as_json (session_start : String) (logs : List LogEntry) :
    JVal :=
  JVal.obj [("session_start", JVal.str session_start),
    ("logs", JVal.arr (logs.map entryToJson))]

/-- Field access on a parsed JSON object (first binding wins, as in a
Python dict without duplicate keys). -/
def lookupField : List (String × JVal) → String → Option JVal
  | [], _ => none
  | (k, v) :: rest, key => if k = key then some v else lookupField rest key

/-- Decoding one entry of the parsed `logs` array back into a `LogEntry`. -/
def parseEntry (j : JVal) : Option LogEntry :=
  match j with
  | JVal.obj fs =>
    match lookupField fs "timestamp", lookupField fs "event",
        lookupField fs "step", lookupField fs "details" with
    | some (JVal.str t), some (JVal.str e), some (JVal.nat s),
        some (JVal.obj d) => some { timestamp := t, event := e, step := s, details := d }
    | _, _, _, _ => none
  | _ => none

/-- Decoding the rendered log document: extract the `logs` array and decode
each element in order. -/
def parseLogs (j : JVal) : Option (List LogEntry) :=
  match j with
  | JVal.obj fs =>
    match lookupField fs "logs" with
    | some (JVal.arr items) => items.mapM parseEntry
    | _ => none
  | _ => none

/-- Spec-side predicate for the step-index discipline: `traceOk i j tr`
says the loop iterations recorded in `tr` start at index `i`, advance by
exactly one only after an iteration whose `run_step` returned true, stop
iterating right after a false result, and end with final index `j`. -/
def traceOk : Nat → Nat → List (Nat × Bool) → Prop
  | i, j, [] => j = i
  | i, j, (k, true) :: tr => k = i ∧ traceOk (i + 1) j tr
  | i, j, (k, false) :: tr => k = i ∧ tr = [] ∧ j = i

/-- Input schedules with no interrupt-signal delivery. -/
def NoSig (polls : List PollEvent) : Prop :=
  ∀ p ∈ polls, p ≠ PollEvent.signal

/-- Whether `pat` occurs at the head of `l`. -/
def isPrefixSeq : List String → List String → Bool
  | [], _ => true
  | _ :: _, [] => false
  | p :: ps, x :: xs => (p == x) && isPrefixSeq ps xs

/-- Whether `pat` occurs contiguously (no other elements interleaved)
anywhere inside the second list. -/
def containsSeq (pat : List String) : List String → Bool
  | [] => isPrefixSeq pat []
  | x :: xs => isPrefixSeq pat (x :: xs) || containsSeq pat xs

/-- The exact event sequence claimed for the two-step proceed/proceed run. -/
def claimedTwoStepSeq : List String :=
  ["Step started", "Progress started", "Progress completed",
   "Action selected", "Step completed",
   "Step started", "Progress started", "Progress completed",
   "Action selected", "Step completed",
   "Automation completed"]

/-- The state produced by dispatching a `retry` action from state `ui`
(menu logging included): warning message, "Step retry" log, and a fresh
progress simulation. -/
def retry_dispatch_state (step : Step) (ui : AutomationUI) : AutomationUI :=
  display_progress
    (log_event
      (print_message
        (log_event ui "Action selected" (some [("action", JVal.str "retry")]))
        "Retrying step..." "warning")
      "Step retry" (some [("step_title", JVal.str step.title)]))
    "Retrying operation..."

/-- The five log entries a `retry` dispatch appends, starting from clock
`c` at step index `i`. -/
def retryEntries (step : Step) (c i : Nat) : List LogEntry :=
  [{ timestamp := toString c, event := "Action selected", step := i + 1,
     details := [("action", JVal.str "retry")] },
   { timestamp := toString (c + 1), event := "Message displayed", step := i + 1,
     details := [("message", JVal.str "Retrying step..."),
       ("level", JVal.str "warning")] },
   { timestamp := toString (c + 2), event := "Step retry", step := i + 1,
     details := [("step_title", JVal.str step.title)] },
   { timestamp := toString (c + 3), event := "Progress started", step := i + 1,
     details := [("description", JVal.str "Retrying operation...")] },
   { timestamp := toString (c + 4), event := "Progress completed", step := i + 1,
     details := [("description", JVal.str "Retrying operation...")] }]

/-- C10: every call to `print_message`, whatever the level, appends exactly
one "Message displayed" entry recording the message text and level, and
touches nothing else of the session state. -/
theorem print_message_always_logs (ui : AutomationUI) (msg lvl : String) :
    (print_message ui msg lvl).session_logs =
      ui.session_logs ++
        [{ timestamp := toString ui.clock, event := "Message displayed",
           step := ui.current_step + 1,
           details := [("message", JVal.str msg), ("level", JVal.str lvl)] }]
    ∧ (print_message ui msg lvl).current_step = ui.current_step
    ∧ (print_message ui msg lvl).is_running = ui.is_running
    ∧ (print_message ui msg lvl).cleanup_count = ui.cleanup_count :=
  ⟨rfl, rfl, rfl, rfl⟩

/-- Decoding the serialization of a single log entry recovers it. -/
theorem parseEntry_entryToJson (e : LogEntry) :
    parseEntry (entryToJson e) = some e := rfl

/-- Decoding the serialized list recovers the entries in order. -/
theorem mapM_parse_map (l : List LogEntry) :
    (l.map entryToJson).mapM parseEntry = some l := by
  induction l with
  | nil => rfl
  | cons e tl ih =>
    rw [List.map_cons, List.mapM_cons, parseEntry_entryToJson, ih]
    rfl

/-- C3: parsing the JSON document rendered by `_format_logs_as_json` yields
the appended entries in append order with identical event, step and
details fields (round-trip fidelity over the external `json` module's
value-faithful encode/decode). -/
theorem render_json_round_trip (session_start : String)
    (logs : List LogEntry) :
    parseLogs (_format_logs_as_json session_start logs) = some logs := by
  have h : parseLogs (_format_logs_as_json session_start logs) =
      (logs.map entryToJson).mapM parseEntry := rfl
  rw [h, mapM_parse_map]

/-- C8: the keystroke mapping — carriage return to proceed, h/q/l/r/s to
help/exit/logs/retry/summary case-insensitively, every other key (and an
empty buffer) to no action rather than an error. -/
theorem keyboard_action_mapping :
    (∀ c : Char,
      ¬(c.toLower = '\r' ∨ c.toLower = 'h' ∨ c.toLower = 'q' ∨
        c.toLower = 'l' ∨ c.toLower = 'r' ∨ c.toLower = 's') →
      check_keyboard_input (some c) = none)
    ∧ check_keyboard_input none = none
    ∧ check_keyboard_input (some '\r') = some "proceed"
    ∧ check_keyboard_input (some 'h') = some "help"
    ∧ check_keyboard_input (some 'H') = some "help"
    ∧ check_keyboard_input (some 'q') = some "exit"
    ∧ check_keyboard_input (some 'Q') = some "exit"
    ∧ check_keyboard_input (some 'l') = some "logs"
    ∧ check_keyboard_input (some 'L') = some "logs"
    ∧ check_keyboard_input (some 'r') = some "retry"
    ∧ check_keyboard_input (some 'R') = some "retry"
    ∧ check_keyboard_input (some 's') = some "summary"
    ∧ check_keyboard_input (some 'S') = some "summary" := by
  refine ⟨?_, rfl, rfl, rfl, rfl, rfl, rfl, rfl, rfl, rfl, rfl, rfl, rfl⟩
  intro c h
  push_neg at h
  obtain ⟨h1, h2, h3, h4, h5, h6⟩ := h
  simp [check_keyboard_input, keyAction, h1, h2, h3, h4, h5, h6]

/-- Closed instance of the unmapped-key case of the mapping claim. -/
theorem keyboard_action_mapping_applied :
    check_keyboard_input (some 'x') = none :=
  keyboard_action_mapping.1 'x' (by decide)

/-- C9: during the action-menu wait loop a buffered keystroke that maps to
no action changes nothing — no log entry, no returned action, polling just
continues — while a recognized action is logged as "Action selected" and
returned. -/
theorem menu_unrecognized_key (ui : AutomationUI) (c : Char)
    (rest : List PollEvent) (aux : Aux) :
    (check_keyboard_input (some c) = none →
      show_action_menu ui (PollEvent.key c :: rest) aux =
        show_action_menu ui rest aux)
    ∧ (∀ a, check_keyboard_input (some c) = some a →
      show_action_menu ui (PollEvent.key c :: rest) aux =
        some (MenuResult.action a,
          log_event ui "Action selected" (some [("action", JVal.str a)]),
          rest, aux)) := by
  constructor
  · intro h
    simp [show_action_menu, h]
  · intro a h
    simp [show_action_menu, h]

/-- Closed instance: an unmapped key is skipped by the menu loop. -/
theorem menu_unrecognized_key_applied :
    show_action_menu init [PollEvent.key 'x'] ⟨[], [], []⟩ =
      show_action_menu init [] ⟨[], [], []⟩ :=
  (menu_unrecognized_key init 'x' [] ⟨[], [], []⟩).1 rfl

/-- C7: dispatching `retry` appends exactly one new progress
started/completed pair (and no "Step started" event), leaves the current
step index unchanged, and stays in the step's action loop. -/
theorem retry_action_effect (step : Step) (fuel : Nat) (ui : AutomationUI)
    (rest : List PollEvent) (aux : Aux) :
    run_step_loop step (fuel + 1) ui (PollEvent.key 'r' :: rest) aux =
      run_step_loop step fuel (retry_dispatch_state step ui) rest aux
    ∧ (retry_dispatch_state step ui).current_step = ui.current_step
    ∧ (retry_dispatch_state step ui).session_logs =
        ui.session_logs ++ retryEntries step ui.clock ui.current_step
    ∧ (retryEntries step ui.clock ui.current_step).countP
        (fun en => en.event == "Progress started") = 1
    ∧ (retryEntries step ui.clock ui.current_step).countP
        (fun en => en.event == "Progress completed") = 1
    ∧ (retryEntries step ui.clock ui.current_step).countP
        (fun en => en.event == "Step started") = 0 := by
  refine ⟨rfl, rfl, ?_, rfl, rfl, rfl⟩
  simp [retry_dispatch_state, display_progress, print_message, log_event,
    retryEntries]

/-- C4: when the log-file write raises, `export_logs` returns failure,
reports an error-level message, logs "Log export failed" with the error
text, and leaves the running flag and step index (and cleanup state)
untouched, so the run continues. -/
theorem export_logs_write_failure (ui : AutomationUI) (fmt e : String)
    (h : ui.is_running = true) :
    (export_logs ui fmt (some e)).2 = false
    ∧ (export_logs ui fmt (some e)).1.is_running = true
    ∧ (export_logs ui fmt (some e)).1.current_step = ui.current_step
    ∧ (export_logs ui fmt (some e)).1.cleanup_count = ui.cleanup_count
    ∧ (export_logs ui fmt (some e)).1.session_logs =
        ui.session_logs ++
          [{ timestamp := toString ui.clock, event := "Message displayed",
             step := ui.current_step + 1,
             details := [("message", JVal.str ("Error exporting logs: " ++ e)),
               ("level", JVal.str "error")] },
           { timestamp := toString (ui.clock + 1),
             event := "Log export failed", step := ui.current_step + 1,
             details := [("error", JVal.str e)] }] := by
  refine ⟨rfl, ?_, rfl, rfl, ?_⟩
  · show ui.is_running = true
    exact h
  · simp [export_logs, print_message, log_event]

/-- Closed instance of the export-failure claim at a concrete state. -/
theorem export_logs_write_failure_applied :
    (export_logs init "text" (some "disk full")).2 = false ∧
    (export_logs init "text" (some "disk full")).1.is_running = true :=
  ⟨(export_logs_write_failure init "text" "disk full" rfl).1,
   (export_logs_write_failure init "text" "disk full" rfl).2.1⟩

/-- C5: with `exit` selected and confirmed on step 1 of the two example
steps, the controller halts at index 0, no "Step started" event for step 2
is ever logged, and "Session terminated by user" is the last (hence last
or second-to-last) event logged before cleanup runs. -/
theorem exit_confirmed_on_first_step :
    (run_automation init exampleSteps [PollEvent.key 'q']
        ⟨[true, false], [], []⟩).map (fun r => r.1.current_step) = some 0
    ∧ (run_automation init exampleSteps [PollEvent.key 'q']
        ⟨[true, false], [], []⟩).map
        (fun r => r.1.session_logs.all
          (fun en => !(en.event == "Step started" && en.step == 2))) =
        some true
    ∧ ((run_automation init exampleSteps [PollEvent.key 'q']
        ⟨[true, false], [], []⟩).map
          (fun r => (r.2.1.map LogEntry.event).getLast?) =
        some (some "Session terminated by user")
      ∨ (run_automation init exampleSteps [PollEvent.key 'q']
        ⟨[true, false], [], []⟩).map
          (fun r => (r.2.1.map LogEntry.event).dropLast.getLast?) =
        some (some "Session terminated by user")) :=
  ⟨rfl, rfl, Or.inl rfl⟩

/-- C6 counterexample: in the two-step proceed/proceed run the full event
log interleaves presentation events ("Header displayed" before each step,
"Message displayed" between each "Action selected" and "Step completed",
and trailing messages after "Automation completed"), so the claimed
sequence never occurs contiguously in the log. -/
theorem two_step_claimed_sequence_false :
    (run_automation init exampleSteps
        [PollEvent.key '\r', PollEvent.key '\r'] ⟨[false, false], [], []⟩).map
      (fun r => r.1.session_logs.map LogEntry.event) =
      some ["Session started", "Header displayed", "Step started",
        "Progress started", "Progress completed", "Action selected",
        "Message displayed", "Step completed", "Header displayed",
        "Step started", "Progress started", "Progress completed",
        "Action selected", "Message displayed", "Step completed",
        "Automation completed", "Message displayed", "Message displayed"]
    ∧ (run_automation init exampleSteps
        [PollEvent.key '\r', PollEvent.key '\r'] ⟨[false, false], [], []⟩).map
      (fun r => containsSeq claimedTwoStepSeq
        (r.1.session_logs.map LogEntry.event)) = some false :=
  ⟨rfl, rfl⟩

/-- C6 (amended): dropping only the session-start event and the
presentation events ("Header displayed", "Message displayed"), the
two-step proceed/proceed run logs exactly the claimed lifecycle sequence —
started, progress pair, action-selected(proceed), completed for each step
— ending with automation-completed carrying total count 2. -/
theorem two_step_filtered_sequence :
    (run_automation init exampleSteps
        [PollEvent.key '\r', PollEvent.key '\r'] ⟨[false, false], [], []⟩).map
      (fun r =>
        (r.1.session_logs.map (fun en => (en.event, en.details))).filter
          (fun p => !(p.1 == "Message displayed" ||
            p.1 == "Header displayed" || p.1 == "Session started"))) =
      some
        [("Step started",
          [("step_title", JVal.str "Initialize System Configuration"),
           ("step_status", JVal.str "Ready to start")]),
         ("Progress started",
          [("description",
            JVal.str "Running Initialize System Configuration...")]),
         ("Progress completed",
          [("description",
            JVal.str "Running Initialize System Configuration...")]),
         ("Action selected", [("action", JVal.str "proceed")]),
         ("Step completed",
          [("step_title", JVal.str "Initialize System Configuration")]),
         ("Step started",
          [("step_title", JVal.str "Data Preparation"),
           ("step_status", JVal.str "Waiting for previous step")]),
         ("Progress started",
          [("description", JVal.str "Running Data Preparation...")]),
         ("Progress completed",
          [("description", JVal.str "Running Data Preparation...")]),
         ("Action selected", [("action", JVal.str "proceed")]),
         ("Step completed", [("step_title", JVal.str "Data Preparation")]),
         ("Automation completed", [("total_steps", JVal.nat 2)])] := rfl

/-- C1 counterexample: when an interrupt signal is handled during the only
step's action wait and the operator then proceeds, the run returns with
cleanup executed twice — once inside the signal handler and once more in
the `finally` block — refuting "never more than once per process run". -/
theorem cleanup_twice_on_interrupt :
    (run_automation init (exampleSteps.take 1)
        [PollEvent.signal, PollEvent.key '\r']
        ⟨[false, false, false], [], []⟩).map (fun r => r.1.cleanup_count) =
      some 2
    ∧ (run_automation init (exampleSteps.take 1)
        [PollEvent.signal, PollEvent.key '\r']
        ⟨[false, false, false], [], []⟩).map (fun r => r.1.cleanup_count) ≠
      some 1 := by
  have h1 : (run_automation init (exampleSteps.take 1)
      [PollEvent.signal, PollEvent.key '\r']
      ⟨[false, false, false], [], []⟩).map (fun r => r.1.cleanup_count) =
      some 2 := rfl
  refine ⟨h1, ?_⟩
  rw [h1]
  simp

theorem export_logs_frame (ui : AutomationUI) (f : String)
    (w : Option String) :
    (export_logs ui f w).1.current_step = ui.current_step ∧
    (export_logs ui f w).1.cleanup_count = ui.cleanup_count := by
  cases w <;> exact ⟨rfl, rfl⟩

theorem show_export_options_frame (ui : AutomationUI) (aux : Aux)
    (ui1 : AutomationUI) (aux1 : Aux)
    (h : show_export_options ui aux = some (ui1, aux1)) :
    ui1.current_step = ui.current_step ∧
    ui1.cleanup_count = ui.cleanup_count := by
  obtain ⟨cf, fm, wr⟩ := aux
  cases fm with
  | nil => simp [show_export_options] at h
  | cons f fs =>
    cases wr with
    | nil => simp [show_export_options] at h
    | cons w ws =>
      simp only [show_export_options, Option.some.injEq, Prod.mk.injEq] at h
      obtain ⟨h1, -⟩ := h
      rw [← h1]
      exact export_logs_frame ui f w

theorem cleanup_state (ui : AutomationUI) (aux : Aux) (ui1 : AutomationUI)
    (aux1 : Aux) (h : cleanup ui aux = some (ui1, aux1)) :
    ui1.current_step = ui.current_step ∧
    ui1.cleanup_count = ui.cleanup_count + 1 := by
  unfold cleanup at h
  split at h
  · injection h with h1
    injection h1 with h2 h3
    rw [← h2]
    exact ⟨rfl, rfl⟩
  · split at h
    · exact Option.noConfusion h
    · rename_i c cs hcf
      split at h
      · split at h
        · exact Option.noConfusion h
        · rename_i u2 a2 hseo
          injection h with h1
          injection h1 with h2 h3
          rw [← h2]
          obtain ⟨hc1, hc2⟩ :=
            show_export_options_frame ui { aux with confirms := cs } u2 a2 hseo
          exact ⟨hc1, by rw [show (cleanup_close u2).cleanup_count =
            u2.cleanup_count + 1 from rfl, hc2]⟩
      · injection h with h1
        injection h1 with h2 h3
        rw [← h2]
        exact ⟨rfl, rfl⟩

theorem handle_interrupt_state (ui : AutomationUI) (aux : Aux)
    (ui1 : AutomationUI) (aux1 : Aux)
    (h : handle_interrupt ui aux = some (ui1, aux1)) :
    ui1.current_step = ui.current_step ∧
    ui1.cleanup_count = ui.cleanup_count + 1 := by
  have h2 : cleanup
      (print_message { ui with is_running := false }
        "\nGracefully shutting down..." "warning") aux = some (ui1, aux1) := h
  obtain ⟨hc1, hc2⟩ := cleanup_state _ aux ui1 aux1 h2
  exact ⟨hc1, hc2⟩

theorem run_finally_state (u : AutomationUI) (a : Aux)
    (t : List (Nat × Bool)) (f : AutomationUI) (p : List LogEntry)
    (tr : List (Nat × Bool)) (h : run_finally u a t = some (f, p, tr)) :
    f.current_step = u.current_step ∧
    f.cleanup_count = u.cleanup_count + 1 ∧
    p = u.session_logs ∧ tr = t := by
  unfold run_finally at h
  cases hcl : cleanup u a with
  | none => rw [hcl] at h; exact absurd h (by simp)
  | some q =>
    obtain ⟨uf, af⟩ := q
    rw [hcl] at h
    injection h with h1
    injection h1 with h2 h3
    injection h3 with h4 h5
    obtain ⟨hc1, hc2⟩ := cleanup_state u a uf af hcl
    rw [← h2, ← h4, ← h5]
    exact ⟨hc1, hc2, rfl, rfl⟩

theorem nosig_cons (p : PollEvent) (rest : List PollEvent) :
    NoSig (p :: rest) ↔ p ≠ PollEvent.signal ∧ NoSig rest := by
  simp [NoSig]

theorem show_action_menu_cs (ui : AutomationUI) (polls : List PollEvent)
    (aux : Aux) :
    ∀ r ui1 polls1 aux1,
      show_action_menu ui polls aux = some (r, ui1, polls1, aux1) →
      ui1.current_step = ui.current_step := by
  induction ui, polls, aux using show_action_menu.induct with
  | case1 ui aux =>
    intro r u p a h
    exact Option.noConfusion h
  | case2 ui rest aux ih =>
    intro r u p a h
    simp only [show_action_menu] at h
    exact ih r u p a h
  | case3 ui msg rest aux =>
    intro r u p a h
    simp only [show_action_menu, Option.some.injEq, Prod.mk.injEq] at h
    obtain ⟨-, h2, -, -⟩ := h
    rw [← h2]
  | case4 ui rest aux hh =>
    intro r u p a h
    simp only [show_action_menu, hh] at h
    exact Option.noConfusion h
  | case5 ui rest aux ui1 aux1 hh ih =>
    intro r u p a h
    simp only [show_action_menu, hh] at h
    rw [ih r u p a h, (handle_interrupt_state ui aux ui1 aux1 hh).1]
  | case6 ui c rest aux a0 hk =>
    intro r u p a h
    simp only [show_action_menu, hk, Option.some.injEq, Prod.mk.injEq] at h
    obtain ⟨-, h2, -, -⟩ := h
    rw [← h2]
    rfl
  | case7 ui c rest aux hk ih =>
    intro r u p a h
    simp only [show_action_menu, hk] at h
    exact ih r u p a h

theorem show_action_menu_count (ui : AutomationUI) (polls : List PollEvent)
    (aux : Aux) :
    ∀ r ui1 polls1 aux1, NoSig polls →
      show_action_menu ui polls aux = some (r, ui1, polls1, aux1) →
      ui1.cleanup_count = ui.cleanup_count ∧ NoSig polls1 := by
  induction ui, polls, aux using show_action_menu.induct with
  | case1 ui aux =>
    intro r u p a _ h
    exact Option.noConfusion h
  | case2 ui rest aux ih =>
    intro r u p a hns h
    simp only [show_action_menu] at h
    exact ih r u p a ((nosig_cons _ _).mp hns).2 h
  | case3 ui msg rest aux =>
    intro r u p a hns h
    simp only [show_action_menu, Option.some.injEq, Prod.mk.injEq] at h
    obtain ⟨-, h2, h3, -⟩ := h
    rw [← h2, ← h3]
    exact ⟨rfl, ((nosig_cons _ _).mp hns).2⟩
  | case4 ui rest aux hh =>
    intro r u p a hns h
    exact absurd rfl ((nosig_cons _ _).mp hns).1
  | case5 ui rest aux ui1 aux1 hh ih =>
    intro r u p a hns h
    exact absurd rfl ((nosig_cons _ _).mp hns).1
  | case6 ui c rest aux a0 hk =>
    intro r u p a hns h
    simp only [show_action_menu, hk, Option.some.injEq, Prod.mk.injEq] at h
    obtain ⟨-, h2, h3, -⟩ := h
    rw [← h2, ← h3]
    exact ⟨rfl, ((nosig_cons _ _).mp hns).2⟩
  | case7 ui c rest aux hk ih =>
    intro r u p a hns h
    simp only [show_action_menu, hk] at h
    exact ih r u p a ((nosig_cons _ _).mp hns).2 h

theorem run_step_loop_cs (step : Step) (fuel : Nat) (ui : AutomationUI)
    (polls : List PollEvent) (aux : Aux) :
    ∀ o u p a, run_step_loop step fuel ui polls aux = some (o, u, p, a) →
      u.current_step = ui.current_step := by
  induction fuel, ui, polls, aux using run_step_loop.induct step with
  | case1 x1 x2 x3 =>
    intro o u p a h
    simp only [run_step_loop] at h
    exact Option.noConfusion h
  | case2 fuel ui polls aux hm =>
    intro o u p a h
    simp only [run_step_loop, hm] at h
    exact Option.noConfusion h
  | case3 fuel ui polls aux msg ui1 polls1 aux1 hm =>
    intro o u p a h
    simp only [run_step_loop, hm, Option.some.injEq, Prod.mk.injEq] at h
    obtain ⟨-, h2, -, -⟩ := h
    rw [← h2]
    exact show_action_menu_cs ui polls aux _ ui1 polls1 aux1 hm
  | case4 fuel ui polls aux ui1 polls1 aux1 hm =>
    intro o u p a h
    simp only [run_step_loop, hm, String.reduceEq, reduceIte,
      Option.some.injEq, Prod.mk.injEq] at h
    obtain ⟨-, h2, -, -⟩ := h
    rw [← h2]
    exact show_action_menu_cs ui polls aux _ ui1 polls1 aux1 hm
  | case5 fuel ui polls aux ui1 polls1 aux1 ui2 ui3 ui4 hm hne ih =>
    intro o u p a h
    simp only [run_step_loop, hm, String.reduceEq, reduceIte] at h
    exact (ih o u p a h).trans
      (show_action_menu_cs ui polls aux _ ui1 polls1 aux1 hm)
  | case6 fuel ui polls aux ui1 polls1 aux1 hm hne1 hne2 ih =>
    intro o u p a h
    simp only [run_step_loop, hm, String.reduceEq, reduceIte] at h
    exact (ih o u p a h).trans
      (show_action_menu_cs ui polls aux _ ui1 polls1 aux1 hm)
  | case7 fuel ui polls aux ui1 polls1 aux1 hseo hm hne1 hne2 hne3 =>
    intro o u p a h
    simp only [run_step_loop, hm, hseo, String.reduceEq, reduceIte] at h
    exact Option.noConfusion h
  | case8 fuel ui polls aux ui1 polls1 aux1 u2 a2 hseo hm hne1 hne2 hne3 ih =>
    intro o u p a h
    simp only [run_step_loop, hm, hseo, String.reduceEq, reduceIte] at h
    exact ((ih o u p a h).trans
        (show_export_options_frame ui1 aux1 u2 a2 hseo).1).trans
      (show_action_menu_cs ui polls aux _ ui1 polls1 aux1 hm)
  | case9 fuel ui polls aux ui1 polls1 aux1 hcf hm hne1 hne2 hne3 hne4 =>
    intro o u p a h
    simp only [run_step_loop, hm, hcf, String.reduceEq, reduceIte] at h
    exact Option.noConfusion h
  | case10 fuel ui polls aux ui1 polls1 aux1 cs hm hne1 hne2 hne3 hne4 hcf =>
    intro o u p a h
    simp only [run_step_loop, hm, hcf, String.reduceEq, reduceIte,
      Option.some.injEq, Prod.mk.injEq] at h
    obtain ⟨-, h2, -, -⟩ := h
    rw [← h2]
    exact show_action_menu_cs ui polls aux _ ui1 polls1 aux1 hm
  | case11 fuel ui polls aux ui1 polls1 aux1 c cs hcf hnc hm hne1 hne2 hne3 hne4 ih =>
    intro o u p a h
    simp only [run_step_loop, hm, hcf, String.reduceEq, reduceIte] at h
    rw [if_neg hnc] at h
    exact (ih o u p a h).trans
      (show_action_menu_cs ui polls aux _ ui1 polls1 aux1 hm)
  | case12 fuel ui polls aux a0 ui1 polls1 aux1 hm hne1 hne2 hne3 hne4 hne5 ih =>
    intro o u p a h
    simp only [run_step_loop, hm] at h
    rw [if_neg hne1, if_neg hne2, if_neg hne3, if_neg hne4, if_neg hne5] at h
    exact (ih o u p a h).trans
      (show_action_menu_cs ui polls aux _ ui1 polls1 aux1 hm)

theorem run_step_cs (step : Step) (ui : AutomationUI)
    (polls : List PollEvent) (aux : Aux) (o : StepOutcome)
    (u : AutomationUI) (p : List PollEvent) (a : Aux)
    (h : run_step step ui polls aux = some (o, u, p, a)) :
    u.current_step = ui.current_step := by
  have h2 : run_step_loop step (polls.length + 1)
      (display_progress
        (log_event (display_header ui) "Step started"
          (some [("step_title", JVal.str step.title),
                 ("step_status", JVal.str step.status)]))
        ("Running " ++ step.title ++ "...")) polls aux = some (o, u, p, a) := h
  exact run_step_loop_cs step (polls.length + 1)
    (display_progress
      (log_event (display_header ui) "Step started"
        (some [("step_title", JVal.str step.title),
               ("step_status", JVal.str step.status)]))
      ("Running " ++ step.title ++ "...")) polls aux o u p a h2

theorem run_step_loop_count (step : Step) (fuel : Nat) (ui : AutomationUI)
    (polls : List PollEvent) (aux : Aux) :
    ∀ o u p a, NoSig polls →
      run_step_loop step fuel ui polls aux = some (o, u, p, a) →
      u.cleanup_count = ui.cleanup_count ∧ NoSig p := by
  induction fuel, ui, polls, aux using run_step_loop.induct step with
  | case1 x1 x2 x3 =>
    intro o u p a hns h
    simp only [run_step_loop] at h
    exact Option.noConfusion h
  | case2 fuel ui polls aux hm =>
    intro o u p a hns h
    simp only [run_step_loop, hm] at h
    exact Option.noConfusion h
  | case3 fuel ui polls aux msg ui1 polls1 aux1 hm =>
    intro o u p a hns h
    simp only [run_step_loop, hm, Option.some.injEq, Prod.mk.injEq] at h
    obtain ⟨-, h2, h3, -⟩ := h
    obtain ⟨hc, hp⟩ := show_action_menu_count ui polls aux _ ui1 polls1 aux1 hns hm
    rw [← h2, ← h3]
    exact ⟨hc, hp⟩
  | case4 fuel ui polls aux ui1 polls1 aux1 hm =>
    intro o u p a hns h
    simp only [run_step_loop, hm, String.reduceEq, reduceIte,
      Option.some.injEq, Prod.mk.injEq] at h
    obtain ⟨-, h2, h3, -⟩ := h
    obtain ⟨hc, hp⟩ := show_action_menu_count ui polls aux _ ui1 polls1 aux1 hns hm
    rw [← h2, ← h3]
    exact ⟨hc, hp⟩
  | case5 fuel ui polls aux ui1 polls1 aux1 ui2 ui3 ui4 hm hne ih =>
    intro o u p a hns h
    simp only [run_step_loop, hm, String.reduceEq, reduceIte] at h
    obtain ⟨hc0, hp0⟩ := show_action_menu_count ui polls aux _ ui1 polls1 aux1 hns hm
    obtain ⟨hc, hp⟩ := ih o u p a hp0 h
    exact ⟨hc.trans hc0, hp⟩
  | case6 fuel ui polls aux ui1 polls1 aux1 hm hne1 hne2 ih =>
    intro o u p a hns h
    simp only [run_step_loop, hm, String.reduceEq, reduceIte] at h
    obtain ⟨hc0, hp0⟩ := show_action_menu_count ui polls aux _ ui1 polls1 aux1 hns hm
    obtain ⟨hc, hp⟩ := ih o u p a hp0 h
    exact ⟨hc.trans hc0, hp⟩
  | case7 fuel ui polls aux ui1 polls1 aux1 hseo hm hne1 hne2 hne3 =>
    intro o u p a hns h
    simp only [run_step_loop, hm, hseo, String.reduceEq, reduceIte] at h
    exact Option.noConfusion h
  | case8 fuel ui polls aux ui1 polls1 aux1 u2 a2 hseo hm hne1 hne2 hne3 ih =>
    intro o u p a hns h
    simp only [run_step_loop, hm, hseo, String.reduceEq, reduceIte] at h
    obtain ⟨hc0, hp0⟩ := show_action_menu_count ui polls aux _ ui1 polls1 aux1 hns hm
    obtain ⟨hc, hp⟩ := ih o u p a hp0 h
    exact ⟨(hc.trans (show_export_options_frame ui1 aux1 u2 a2 hseo).2).trans hc0, hp⟩
  | case9 fuel ui polls aux ui1 polls1 aux1 hcf hm hne1 hne2 hne3 hne4 =>
    intro o u p a hns h
    simp only [run_step_loop, hm, hcf, String.reduceEq, reduceIte] at h
    exact Option.noConfusion h
  | case10 fuel ui polls aux ui1 polls1 aux1 cs hm hne1 hne2 hne3 hne4 hcf =>
    intro o u p a hns h
    simp only [run_step_loop, hm, hcf, String.reduceEq, reduceIte,
      Option.some.injEq, Prod.mk.injEq] at h
    obtain ⟨-, h2, h3, -⟩ := h
    obtain ⟨hc, hp⟩ := show_action_menu_count ui polls aux _ ui1 polls1 aux1 hns hm
    rw [← h2, ← h3]
    exact ⟨hc, hp⟩
  | case11 fuel ui polls aux ui1 polls1 aux1 c cs hcf hnc hm hne1 hne2 hne3 hne4 ih =>
    intro o u p a hns h
    simp only [run_step_loop, hm, hcf, String.reduceEq, reduceIte] at h
    rw [if_neg hnc] at h
    obtain ⟨hc0, hp0⟩ := show_action_menu_count ui polls aux _ ui1 polls1 aux1 hns hm
    obtain ⟨hc, hp⟩ := ih o u p a hp0 h
    exact ⟨hc.trans hc0, hp⟩
  | case12 fuel ui polls aux a0 ui1 polls1 aux1 hm hne1 hne2 hne3 hne4 hne5 ih =>
    intro o u p a hns h
    simp only [run_step_loop, hm] at h
    rw [if_neg hne1, if_neg hne2, if_neg hne3, if_neg hne4, if_neg hne5] at h
    obtain ⟨hc0, hp0⟩ := show_action_menu_count ui polls aux _ ui1 polls1 aux1 hns hm
    obtain ⟨hc, hp⟩ := ih o u p a hp0 h
    exact ⟨hc.trans hc0, hp⟩

theorem run_step_count (step : Step) (ui : AutomationUI)
    (polls : List PollEvent) (aux : Aux) (o : StepOutcome)
    (u : AutomationUI) (p : List PollEvent) (a : Aux) (hns : NoSig polls)
    (h : run_step step ui polls aux = some (o, u, p, a)) :
    u.cleanup_count = ui.cleanup_count ∧ NoSig p := by
  have h2 : run_step_loop step (polls.length + 1)
      (display_progress
        (log_event (display_header ui) "Step started"
          (some [("step_title", JVal.str step.title),
                 ("step_status", JVal.str step.status)]))
        ("Running " ++ step.title ++ "...")) polls aux = some (o, u, p, a) := h
  exact run_step_loop_count step (polls.length + 1)
    (display_progress
      (log_event (display_header ui) "Step started"
        (some [("step_title", JVal.str step.title),
               ("step_status", JVal.str step.status)]))
      ("Running " ++ step.title ++ "...")) polls aux o u p a hns h2

theorem run_auto_loop_trace (steps : List Step) (fuel : Nat)
    (ui : AutomationUI) (polls : List PollEvent) (aux : Aux) :
    ∀ exc uf pf af tr,
      run_auto_loop steps fuel ui polls aux = some (exc, uf, pf, af, tr) →
      traceOk ui.current_step uf.current_step tr := by
  induction fuel, ui, polls, aux using run_auto_loop.induct steps with
  | case1 x1 x2 x3 =>
    intro exc uf pf af tr h
    simp only [run_auto_loop] at h
    exact Option.noConfusion h
  | case2 fuel ui polls aux hcond hrs =>
    intro exc uf pf af tr h
    simp only [run_auto_loop, hcond, hrs, reduceIte] at h
    exact Option.noConfusion h
  | case3 fuel ui polls aux hcond msg ui1 polls1 aux1 hrs =>
    intro exc uf pf af tr h
    simp only [run_auto_loop, hcond, hrs, reduceIte,
      Option.some.injEq, Prod.mk.injEq] at h
    obtain ⟨-, h2, -, -, h5⟩ := h
    rw [← h2, ← h5]
    exact ⟨rfl, rfl,
      run_step_cs (steps.getD ui.current_step default) ui polls aux
        _ ui1 polls1 aux1 hrs⟩
  | case4 fuel ui polls aux hcond ui1 polls1 aux1 hrs hrec ih =>
    intro exc uf pf af tr h
    simp only [run_auto_loop, hcond, hrs, hrec, reduceIte] at h
    exact Option.noConfusion h
  | case5 fuel ui polls aux hcond ui1 polls1 aux1 hrs exc0 uf0 pf0 af0 tr0 hrec ih =>
    intro exc uf pf af tr h
    simp only [run_auto_loop, hcond, hrs, hrec, reduceIte,
      Option.some.injEq, Prod.mk.injEq] at h
    obtain ⟨-, h2, -, -, h5⟩ := h
    have hstep := ih exc0 uf0 pf0 af0 tr0 hrec
    have hcs : ui1.current_step = ui.current_step :=
      run_step_cs (steps.getD ui.current_step default) ui polls aux
        _ ui1 polls1 aux1 hrs
    rw [← h2, ← h5]
    refine ⟨rfl, ?_⟩
    have hstep2 : traceOk (ui1.current_step + 1) uf0.current_step tr0 := hstep
    rw [hcs] at hstep2
    exact hstep2
  | case6 fuel ui polls aux hcond ui1 polls1 aux1 hrs =>
    intro exc uf pf af tr h
    simp only [run_auto_loop, hcond, hrs, reduceIte,
      Option.some.injEq, Prod.mk.injEq] at h
    obtain ⟨-, h2, -, -, h5⟩ := h
    rw [← h2, ← h5]
    exact ⟨rfl, rfl,
      run_step_cs (steps.getD ui.current_step default) ui polls aux
        _ ui1 polls1 aux1 hrs⟩
  | case7 fuel ui polls aux hcond =>
    intro exc uf pf af tr h
    simp only [run_auto_loop] at h
    rw [if_neg hcond] at h
    simp only [Option.some.injEq, Prod.mk.injEq] at h
    obtain ⟨-, h2, -, -, h5⟩ := h
    rw [← h2, ← h5]
    rfl

theorem run_auto_loop_count (steps : List Step) (fuel : Nat)
    (ui : AutomationUI) (polls : List PollEvent) (aux : Aux) :
    ∀ exc uf pf af tr, NoSig polls →
      run_auto_loop steps fuel ui polls aux = some (exc, uf, pf, af, tr) →
      uf.cleanup_count = ui.cleanup_count ∧ NoSig pf := by
  induction fuel, ui, polls, aux using run_auto_loop.induct steps with
  | case1 x1 x2 x3 =>
    intro exc uf pf af tr hns h
    simp only [run_auto_loop] at h
    exact Option.noConfusion h
  | case2 fuel ui polls aux hcond hrs =>
    intro exc uf pf af tr hns h
    simp only [run_auto_loop, hcond, hrs, reduceIte] at h
    exact Option.noConfusion h
  | case3 fuel ui polls aux hcond msg ui1 polls1 aux1 hrs =>
    intro exc uf pf af tr hns h
    simp only [run_auto_loop, hcond, hrs, reduceIte,
      Option.some.injEq, Prod.mk.injEq] at h
    obtain ⟨-, h2, h3, -, -⟩ := h
    obtain ⟨hc, hp⟩ := run_step_count (steps.getD ui.current_step default)
      ui polls aux _ ui1 polls1 aux1 hns hrs
    rw [← h2, ← h3]
    exact ⟨hc, hp⟩
  | case4 fuel ui polls aux hcond ui1 polls1 aux1 hrs hrec ih =>
    intro exc uf pf af tr hns h
    simp only [run_auto_loop, hcond, hrs, hrec, reduceIte] at h
    exact Option.noConfusion h
  | case5 fuel ui polls aux hcond ui1 polls1 aux1 hrs exc0 uf0 pf0 af0 tr0 hrec ih =>
    intro exc uf pf af tr hns h
    simp only [run_auto_loop, hcond, hrs, hrec, reduceIte,
      Option.some.injEq, Prod.mk.injEq] at h
    obtain ⟨-, h2, h3, -, -⟩ := h
    obtain ⟨hc0, hp0⟩ := run_step_count (steps.getD ui.current_step default)
      ui polls aux _ ui1 polls1 aux1 hns hrs
    obtain ⟨hc, hp⟩ := ih exc0 uf0 pf0 af0 tr0 hp0 hrec
    rw [← h2, ← h3]
    exact ⟨hc.trans hc0, hp⟩
  | case6 fuel ui polls aux hcond ui1 polls1 aux1 hrs =>
    intro exc uf pf af tr hns h
    simp only [run_auto_loop, hcond, hrs, reduceIte,
      Option.some.injEq, Prod.mk.injEq] at h
    obtain ⟨-, h2, h3, -, -⟩ := h
    obtain ⟨hc, hp⟩ := run_step_count (steps.getD ui.current_step default)
      ui polls aux _ ui1 polls1 aux1 hns hrs
    rw [← h2, ← h3]
    exact ⟨hc, hp⟩
  | case7 fuel ui polls aux hcond =>
    intro exc uf pf af tr hns h
    simp only [run_auto_loop] at h
    rw [if_neg hcond] at h
    simp only [Option.some.injEq, Prod.mk.injEq] at h
    obtain ⟨-, h2, h3, -, -⟩ := h
    rw [← h2, ← h3]
    exact ⟨rfl, hns⟩

theorem run_post_loop_state (steps : List Step) (exc : Option String)
    (ui1 : AutomationUI) (aux1 : Aux) (tr1 : List (Nat × Bool)) :
    ∀ f pre tr, run_post_loop steps exc ui1 aux1 tr1 = some (f, pre, tr) →
      f.current_step = ui1.current_step ∧
      f.cleanup_count = ui1.cleanup_count + 1 ∧ tr = tr1 := by
  intro f pre tr h
  cases exc with
  | some msg =>
    simp only [run_post_loop] at h
    obtain ⟨hcs, hcc, -, htr⟩ := run_finally_state _ aux1 tr1 f pre tr h
    exact ⟨hcs, hcc, htr⟩
  | none =>
    simp only [run_post_loop] at h
    split at h
    · split at h
      · exact Option.noConfusion h
      · rename_i c cs hcf
        split at h
        · split at h
          · exact Option.noConfusion h
          · rename_i u4 a3 hseo
            obtain ⟨hcs, hcc, -, htr⟩ := run_finally_state u4 a3 tr1 f pre tr h
            obtain ⟨hs1, hs2⟩ := show_export_options_frame _ _ u4 a3 hseo
            refine ⟨hcs.trans ?_, ?_, htr⟩
            · exact hs1
            · rw [hcc, hs2]
              rfl
        · obtain ⟨hcs, hcc, -, htr⟩ := run_finally_state _ _ tr1 f pre tr h
          exact ⟨hcs, hcc, htr⟩
    · obtain ⟨hcs, hcc, -, htr⟩ := run_finally_state ui1 aux1 tr1 f pre tr h
      exact ⟨hcs, hcc, htr⟩

/-- C2: over any run of `run_automation` that returns, the step index
starts at the initial index and the iteration trace shows it never
decreases and never skips: it advances by exactly 1 exactly after an
iteration whose `run_step` returned true (a proceed outcome), the loop
stops right after a false result, and the final state's index is the last
value reached. -/
theorem step_index_discipline (ui : AutomationUI) (steps : List Step)
    (polls : List PollEvent) (aux : Aux) :
    ∀ f pre tr, run_automation ui steps polls aux = some (f, pre, tr) →
      traceOk ui.current_step f.current_step tr := by
  intro f pre tr h
  unfold run_automation at h
  cases hloop : run_auto_loop steps (polls.length + 1) ui polls aux with
  | none =>
    rw [hloop] at h
    exact Option.noConfusion h
  | some res =>
    obtain ⟨exc, ui1, polls1, aux1, tr1⟩ := res
    rw [hloop] at h
    have h2 : run_post_loop steps exc ui1 aux1 tr1 = some (f, pre, tr) := h
    obtain ⟨hcs, -, htr⟩ :=
      run_post_loop_state steps exc ui1 aux1 tr1 f pre tr h2
    have htrace := run_auto_loop_trace steps (polls.length + 1) ui polls aux
      exc ui1 polls1 aux1 tr1 hloop
    rw [htr, hcs]
    exact htrace

/-- Closed instance of the index discipline on a one-step proceed run:
the trace is one iteration at index 0 returning true, ending at index 1. -/
theorem step_index_discipline_applied : traceOk 0 1 [(0, true)] := by
  exact step_index_discipline init (exampleSteps.take 1)
    [PollEvent.key '\r'] ⟨[false, false], [], []⟩ _ _ _ rfl

/-- C1 (amended): on every signal-free run of `run_automation` that
returns (natural completion, user-confirmed exit, or unexpected failure),
the cleanup routine executes exactly once — the ghost counter rises by
exactly 1.  (With an interrupt signal it also runs inside the handler, so
twice in total; see the counterexample.) -/
theorem cleanup_exactly_once_without_signal (ui : AutomationUI)
    (steps : List Step) (polls : List PollEvent) (aux : Aux)
    (hns : NoSig polls) :
    ∀ f pre tr, run_automation ui steps polls aux = some (f, pre, tr) →
      f.cleanup_count = ui.cleanup_count + 1 := by
  intro f pre tr h
  unfold run_automation at h
  cases hloop : run_auto_loop steps (polls.length + 1) ui polls aux with
  | none =>
    rw [hloop] at h
    exact Option.noConfusion h
  | some res =>
    obtain ⟨exc, ui1, polls1, aux1, tr1⟩ := res
    rw [hloop] at h
    have h2 : run_post_loop steps exc ui1 aux1 tr1 = some (f, pre, tr) := h
    obtain ⟨-, hcc, -⟩ :=
      run_post_loop_state steps exc ui1 aux1 tr1 f pre tr h2
    obtain ⟨hc0, -⟩ := run_auto_loop_count steps (polls.length + 1) ui polls
      aux exc ui1 polls1 aux1 tr1 hns hloop
    rw [hcc, hc0]

/-- Closed instance: a signal-free one-step proceed run ends with the
cleanup counter at exactly 1. -/
theorem cleanup_exactly_once_without_signal_applied :
    (run_automation init (exampleSteps.take 1) [PollEvent.key '\r']
        ⟨[false, false], [], []⟩).map (fun r => r.1.cleanup_count) =
      some 1 := by
  cases hE : run_automation init (exampleSteps.take 1) [PollEvent.key '\r']
      ⟨[false, false], [], []⟩ with
  | none =>
    have hs : (run_automation init (exampleSteps.take 1) [PollEvent.key '\r']
        ⟨[false, false], [], []⟩).isSome = true := rfl
    rw [hE] at hs
    exact absurd hs (by simp)
  | some r =>
    obtain ⟨f, pre, tr⟩ := r
    have hres := cleanup_exactly_once_without_signal init
      (exampleSteps.take 1) [PollEvent.key '\r'] ⟨[false, false], [], []⟩
      (by
        intro p hp
        simp only [List.mem_singleton] at hp
        subst hp
        intro hq
        exact PollEvent.noConfusion hq)
      f pre tr hE
    show some f.cleanup_count = some 1
    rw [hres]
    rfl
